import Mathlib

/-!
Shallow embedding of the STT audio worker (`audio_worker.py`) and its IPC
client (`audio_worker_client.py`).  Audio samples and the float arithmetic of
the waveform pipeline are idealised as real numbers; machine-float rounding is
not modelled.  Lists stand for numpy arrays (a chunk is a frames x channels
array), `Option`/`Except` stand for nullable fields and raised exceptions.
-/

/-- One entry of `sd.query_devices()`: the fields `_resolve_device` reads. -/
structure Device where
  name : String
  maxInputChannels : Int
deriving DecidableEq

/-- The arguments `Recorder.start` passes to `sd.InputStream`. -/
structure StreamInfo where
  device : Option Nat
  sampleRate : Int
  channels : Int

/-- One driver-delivered block of samples: frames, each a list of channels. -/
abbrev Chunk := List (List ℝ)

/-- The mutable fields of `Recorder.__init__`. -/
structure Recorder where
  recording : Bool
  stream : Option StreamInfo
  chunks : List Chunk
  sampleRate : Option Int
  channels : Option Int
  lastWaveformTime : ℝ
  waveformBuffer : List Chunk
  peakLevel : ℝ
  peakHistory : List ℝ

/-- `Recorder.__init__` (time starts at 0). -/
noncomputable def initRecorder : Recorder :=
  { recording := false
    stream := none
    chunks := []
    sampleRate := none
    channels := none
    lastWaveformTime := 0
    waveformBuffer := []
    peakLevel := 0.01
    peakHistory := [] }

/-- `Recorder._resolve_device`: first input-capable device with the exact name. -/
def resolveDevice (devs : List Device) (name : String) : Option Nat :=
  (devs.enum.find? fun p => decide (0 < p.2.maxInputChannels ∧ p.2.name = name)).map Prod.fst

/-- The two `RuntimeError`s `Recorder.start` can raise. -/
inductive StartError
  | alreadyRecording
  | deviceNotFound (name : String)
deriving DecidableEq

def StartError.message : StartError → String
  | .alreadyRecording => "Already recording"
  | .deviceNotFound n => "Audio device " ++ n ++ " not found"

/-- `Recorder.start`.  `if device_name:` is Python truthiness, so an empty
string skips device resolution just like `None`. -/
noncomputable def Recorder.start (r : Recorder) (devs : List Device) (now : ℝ)
    (deviceName : Option String) (sampleRate channels : Int) :
    Except StartError Recorder :=
  if r.recording then .error .alreadyRecording
  else
    let resolved : Except StartError (Option Nat) :=
      match deviceName with
      | some n =>
        if n.isEmpty then .ok none
        else
          match resolveDevice devs n with
          | some i => .ok (some i)
          | none => .error (.deviceNotFound n)
      | none => .ok none
    match resolved with
    | .error e => .error e
    | .ok idx =>
      .ok { recording := true
            stream := some ⟨idx, sampleRate, channels⟩
            chunks := []
            sampleRate := some sampleRate
            channels := some channels
            lastWaveformTime := now
            waveformBuffer := []
            peakLevel := 0.01
            peakHistory := [] }

/-- `Recorder.start` seen as a state transition: a raised error leaves the
recorder untouched. -/
noncomputable def startStep (r : Recorder) (devs : List Device) (now : ℝ)
    (deviceName : Option String) (sampleRate channels : Int) :
    Recorder × Option StartError :=
  match r.start devs now deviceName sampleRate channels with
  | .ok r' => (r', none)
  | .error e => (r, some e)

/-- `(audio * 32767).astype(np.int16)` on one sample: truncation toward zero
(the int16 overflow wrap of the cast is not modelled). -/
noncomputable def toInt16 (x : ℝ) : Int :=
  if 0 ≤ x * 32767 then ⌊x * 32767⌋ else ⌈x * 32767⌉

/-- What `scipy.io.wavfile.write` receives. -/
structure WrittenFile where
  path : String
  rate : Int
  frames : List (List Int)

/-- Every sample of every captured chunk, in order. -/
def allSamples (cs : List Chunk) : List ℝ := cs.flatten.flatten

/-- `float(np.max(np.abs(a)))` for a nonempty flattened array, folded with 0
as the start (equal to the true maximum since absolute values are nonneg). -/
noncomputable def maxAbs (l : List ℝ) : ℝ := (l.map abs).foldl max 0

/-- Python `x or d` for an optional integer (`None` and `0` are falsy). -/
def pyIntOr (v : Option Int) (d : Int) : Int :=
  match v with
  | none => d
  | some n => if n = 0 then d else n

/-- `Recorder.stop`.  The `Except` error is the `ValueError` `np.max` raises
on an empty (zero-sample) concatenation; the state mutations performed before
that point persist, as in the source. -/
noncomputable def Recorder.stop (r : Recorder) (wavPath : String) :
    Recorder × Except String (Nat × ℝ × Option WrittenFile) :=
  if r.recording = false then (r, .ok (0, 0, none))
  else
    let r' := { r with recording := false, stream := none, chunks := [] }
    if r.chunks.isEmpty then (r', .ok (0, 0, none))
    else
      let audio := r.chunks.flatten
      let frames := audio.length
      let flat := audio.flatten
      if flat.isEmpty then (r', .error "zero-size array reduction")
      else
        let peak := maxAbs flat
        (r', .ok (frames, peak,
          some ⟨wavPath, pyIntOr r.sampleRate 16000,
            audio.map fun fr => fr.map toInt16⟩))

/-- `Recorder.cancel` (also `Recorder.shutdown`). -/
def Recorder.cancel (r : Recorder) : Recorder :=
  { r with recording := false, chunks := [], stream := none }

def WAVEFORM_BARS : Nat := 24

def PEAK_WINDOW_SIZE : Nat := 90

/-- The waveform-normalization state of the `Recorder`. -/
structure WaveState where
  peakLevel : ℝ
  peakHistory : List ℝ

/-- `float(np.sqrt(np.mean(chunk ** 2)))`. -/
noncomputable def rms (l : List ℝ) : ℝ :=
  Real.sqrt ((l.map fun x => x ^ 2).sum / l.length)

/-- The downsampling loop of `Recorder._send_waveform` (lines 111-128):
`samples_per_bar = max(len(audio) // 24, 1)`; bar `i` is the RMS of
`audio[i*spb : min(i*spb + spb, len(audio))]`, or `0.0` when the slice starts
at or beyond the end. -/
noncomputable def rawValues (audio : List ℝ) : List ℝ :=
  let spb := max (audio.length / WAVEFORM_BARS) 1
  (List.range WAVEFORM_BARS).map fun i =>
    let s := i * spb
    let e := min (s + spb) audio.length
    if s < audio.length then rms ((audio.drop s).take (e - s)) else 0

open Classical in
/-- Ascending sort of a real-valued list (the sort inside `np.percentile`). -/
noncomputable def sortR (l : List ℝ) : List ℝ :=
  l.mergeSort fun a b => decide (a ≤ b)

open Classical in
/-- `float(np.percentile(a, 85))` with the default linear interpolation:
virtual index `h = 0.85 * (n - 1)` into the sorted data. -/
noncomputable def percentile85 (l : List ℝ) : ℝ :=
  let s := sortR l
  let n := s.length
  if n = 0 then 0
  else
    let h : ℝ := 0.85 * ((n : ℝ) - 1)
    let i : Nat := (⌊h⌋).toNat
    let lo := s.getD i 0
    let hi := s.getD (i + 1) lo
    lo + (h - ⌊h⌋) * (hi - lo)

/-- `Recorder._send_waveform`, as a function of the waveform state and the
pending buffer: returns `none` when the buffer is empty (early return, no
event), otherwise the emitted `(values, raw_peak)` and the updated state. -/
noncomputable def sendWaveform (st : WaveState) (buffer : List Chunk) :
    Option (List ℝ × ℝ × WaveState) :=
  if buffer.isEmpty then none
  else
    let audio2d := buffer.flatten
    let mono := audio2d.map fun fr => fr.headD 0
    let audio := mono.map fun x => |x|
    let raw := rawValues audio
    let currentMax := if raw.isEmpty then 0 else raw.foldl max (raw.headD 0)
    let hist0 := st.peakHistory ++ [currentMax]
    let hist := if PEAK_WINDOW_SIZE < hist0.length then hist0.drop 1 else hist0
    let target := max (percentile85 hist) 0.005
    let pl := st.peakLevel * 0.8 + target * 0.2
    let values := raw.map fun v => min 1 (v / pl * 0.85)
    some (values, currentMax, ⟨pl, hist⟩)

/-- The segmentation claimed by the spec, written from its words: 24
segments of length `max(total/24, 1)` with the trailing remainder folded
into the last segment; an empty segment yields 0. -/
noncomputable def rawValuesClaim (audio : List ℝ) : List ℝ :=
  let L := max (audio.length / WAVEFORM_BARS) 1
  (List.range WAVEFORM_BARS).map fun i =>
    let seg :=
      if i = WAVEFORM_BARS - 1 then audio.drop (i * L)
      else (audio.drop (i * L)).take L
    if seg.isEmpty then 0 else rms seg

/-- Bar `i`'s segment described by sample positions: indices
`[i*L, min(i*L + L, total))` of the audio, where `L = max(total/24, 1)`. -/
def barSegment (audio : List ℝ) (i : Nat) : List ℝ :=
  let L := max (audio.length / WAVEFORM_BARS) 1
  (List.range' (i * L) (min (i * L + L) audio.length - i * L)).map
    fun j => audio.getD j 0

/-- A decoded JSON object on the client side: the fields the client reads.
Absent keys are `none` (`dict.get` returns `None` for both absent and null). -/
structure QMsg where
  type : Option String := none
  id : Option Int := none
  error : Option String := none
  line : Option String := none
  values : Option (List ℝ) := none
  rawPeak : Option ℝ := none

/-- One line read by the client's reader thread from the worker's stdout. -/
inductive WireLine
  | blank
  | nonJson (raw : String)
  | json (m : QMsg)

/-- The message `_read_stdout` enqueues for a non-JSON line. -/
def stdoutMsg (raw : String) : QMsg := { type := some "stdout", line := some raw }

/-- The sentinel `_read_stdout` enqueues when the stream closes. -/
def eofMsg : QMsg := { type := some "eof" }

/-- The response `_wait_for_locked` synthesizes on the `eof` sentinel. -/
def eofErrorResponse : QMsg :=
  { type := some "error", error := some "Audio worker exited unexpectedly" }

/-- `AudioWorkerClient._read_stdout` over a finite stream of lines: returns
the inbound queue contents (in order, `eof` sentinel last) and, separately,
the `(values, raw_peak)` pairs handed to the waveform callback. -/
def readStdout : List WireLine → List QMsg × List (List ℝ × ℝ)
  | [] => ([eofMsg], [])
  | .blank :: rest => readStdout rest
  | .nonJson raw :: rest =>
    (stdoutMsg raw :: (readStdout rest).1, (readStdout rest).2)
  | .json m :: rest =>
    if m.type = some "waveform" then
      ((readStdout rest).1, (m.values.getD [], m.rawPeak.getD 0) :: (readStdout rest).2)
    else
      (m :: (readStdout rest).1, (readStdout rest).2)

/-- `AudioWorkerClient._wait_for_locked` over the queued messages, with the
timeout abstracted away: `none` models hitting the deadline with the queue
exhausted. The `eof` check comes before the predicate, as in the source. -/
def waitForLocked (pred : QMsg → Bool) : List QMsg → Option QMsg
  | [] => none
  | m :: rest =>
    if m.type = some "eof" then some eofErrorResponse
    else if pred m then some m
    else waitForLocked pred rest

/-- Terminal-response predicate of `start_recording`. -/
def startedPred (reqId : Int) (m : QMsg) : Bool :=
  decide ((m.type = some "started" ∨ m.type = some "error") ∧ m.id = some reqId)

/-- Terminal-response predicate of `stop_recording`. -/
def stoppedPred (reqId : Int) (m : QMsg) : Bool :=
  decide ((m.type = some "stopped" ∨ m.type = some "error") ∧ m.id = some reqId)

/-- Terminal-response predicate of `cancel_recording`. -/
def canceledPred (reqId : Int) (m : QMsg) : Bool :=
  decide ((m.type = some "canceled" ∨ m.type = some "error") ∧ m.id = some reqId)

/-- Readiness predicate of `_ensure_running_locked`. -/
def readyPred (m : QMsg) : Bool :=
  decide (m.type = some "ready" ∨ m.type = some "error")

/-- A JSON field that the worker reads with `message.get(...)` and feeds to
`x or default`: absent, JSON null, or an integer. -/
inductive JField
  | absent
  | null
  | num (n : Int)
deriving DecidableEq

/-- `int(message.get(k) or d)`: Python `or` takes the default for the falsy
values `None` (absent or null key) and `0`. -/
def jOrInt : JField → Int → Int
  | .absent, d => d
  | .null, d => d
  | .num n, d => if n = 0 then d else n

/-- A decoded JSON request on the worker side: the fields `main` reads. -/
structure InMsg where
  type : Option String := none
  id : Option Int := none
  deviceName : Option String := none
  sampleRate : JField := .absent
  channels : JField := .absent
  wavPath : Option String := none

/-- One line arriving on the worker's stdin. -/
inductive WireIn
  | blank
  | nonJson (raw : String)
  | json (m : InMsg)

/-- A JSON object written by the worker loop to its stdout. -/
inductive OutMsg
  | started (id : Option Int)
  | stopped (id : Option Int) (wavPath : String) (frames : Nat) (peak : ℝ)
  | canceled (id : Option Int)
  | shutdownAck
  | errorOut (id : Option Int) (message : String)

/-- Everything one iteration of the worker's `main` loop produces. -/
structure StepResult where
  state : Recorder
  out : List OutMsg
  logs : List String
  written : Option WrittenFile
  exitCode : Option Int

/-- One iteration of the `for line in sys.stdin` loop of `audio_worker.main`:
blank lines are skipped, non-JSON lines logged and ignored, unknown types
logged and ignored, handler exceptions turned into an `error` response with
the request id; only `shutdown` ends the loop (exit code 0). -/
noncomputable def handleLine (devs : List Device) (now : ℝ) (r : Recorder) :
    WireIn → StepResult
  | .blank => ⟨r, [], [], none, none⟩
  | .nonJson raw =>
    ⟨r, [], ["[stt:audio-worker] Non-JSON input ignored: " ++ raw], none, none⟩
  | .json m =>
    if m.type = some "shutdown" then
      ⟨r.cancel, [.shutdownAck], [], none, some 0⟩
    else if m.type = some "start" then
      match r.start devs now m.deviceName (jOrInt m.sampleRate 16000) (jOrInt m.channels 1) with
      | .ok r' => ⟨r', [.started m.id], [], none, none⟩
      | .error e => ⟨r, [.errorOut m.id e.message], [e.message], none, none⟩
    else if m.type = some "stop" then
      match m.wavPath with
      | none => ⟨r, [.errorOut m.id "Missing wav_path"], ["Missing wav_path"], none, none⟩
      | some p =>
        if p.isEmpty then
          ⟨r, [.errorOut m.id "Missing wav_path"], ["Missing wav_path"], none, none⟩
        else
          match r.stop p with
          | (r', .ok (frames, peak, file)) =>
            ⟨r', [.stopped m.id p frames peak], [], file, none⟩
          | (r', .error msg) => ⟨r', [.errorOut m.id msg], [msg], none, none⟩
    else if m.type = some "cancel" then
      ⟨r.cancel, [.canceled m.id], [], none, none⟩
    else
      ⟨r, [], ["[stt:audio-worker] Unknown message type"], none, none⟩

/-- A recorder that is currently Recording with nothing captured yet. -/
noncomputable def recRecording : Recorder := { initRecorder with recording := true }

/-- A recorder mid-recording holding two captured chunks of one frame each. -/
noncomputable def recWithChunks : Recorder :=
  { initRecorder with recording := true, chunks := [[[1]], [[2]]] }

/-- A concrete `start` request whose `sample_rate` is JSON null and whose
`channels` key is absent. -/
def startMsg0 : InMsg :=
  { type := some "start", id := some 1, sampleRate := .null, channels := .absent }

/-- The initial waveform state set by `Recorder.__init__` / `start`. -/
noncomputable def waveSt0 : WaveState := ⟨0.01, []⟩

/-- C4: `start` called while the recorder is Recording fails with
`AlreadyRecording` and the whole recorder state is unchanged. -/
theorem start_already_recording (r : Recorder) (devs : List Device) (now : ℝ)
    (dn : Option String) (sr ch : Int) (h : r.recording = true) :
    startStep r devs now dn sr ch = (r, some .alreadyRecording) := by
  simp [startStep, Recorder.start, h]

theorem start_already_recording_witness :
    recRecording.recording = true ∧
    startStep recRecording [] 0 none 16000 1 = (recRecording, some .alreadyRecording) :=
  ⟨rfl, start_already_recording recRecording [] 0 none 16000 1 rfl⟩

/-- C5: `stop` on an Idle recorder returns `(0, 0.0)` and writes no file;
`stop` while Recording with zero captured chunks likewise returns `(0, 0.0)`
and writes no file. -/
theorem stop_idle_empty (r : Recorder) (p : String) :
    (r.recording = false → r.stop p = (r, .ok (0, 0, none))) ∧
    (r.recording = true → r.chunks = [] →
      r.stop p = ({ r with recording := false, stream := none, chunks := [] },
        .ok (0, 0, none))) := by
  constructor
  · intro h
    simp [Recorder.stop, h]
  · intro h hch
    simp [Recorder.stop, h, hch]

theorem stop_idle_empty_witness :
    initRecorder.recording = false ∧
    recRecording.recording = true ∧ recRecording.chunks = [] ∧
    initRecorder.stop "out.wav" = (initRecorder, .ok (0, 0, none)) ∧
    recRecording.stop "out.wav" =
      ({ recRecording with recording := false, stream := none, chunks := [] },
        .ok (0, 0, none)) :=
  ⟨rfl, rfl, rfl, (stop_idle_empty initRecorder "out.wav").1 rfl,
    (stop_idle_empty recRecording "out.wav").2 rfl rfl⟩

/-- C6 counterexample: the empty string is a device name that matches no
input-capable device, yet `start` does not fail with `DeviceNotFound` — the
Python truthiness test `if device_name:` skips resolution for `""`, the call
succeeds and the recorder leaves Idle (a stream is opened). -/
theorem start_empty_name_counterexample :
    resolveDevice [] "" = none ∧
    (startStep initRecorder [] 0 (some "") 16000 1).2 = none ∧
    (startStep initRecorder [] 0 (some "") 16000 1).1.recording = true := by
  exact ⟨rfl, rfl, rfl⟩

/-- C6 amended: for every NON-EMPTY device name that matches no input-capable
device by exact name, `start` fails with `DeviceNotFound` and the recorder
state is completely unchanged (still Idle, no buffers reset, no stream). -/
theorem start_device_not_found (r : Recorder) (devs : List Device) (now : ℝ)
    (n : String) (sr ch : Int) (hrec : r.recording = false)
    (hne : n.isEmpty = false) (hres : resolveDevice devs n = none) :
    startStep r devs now (some n) sr ch = (r, some (.deviceNotFound n)) := by
  simp [startStep, Recorder.start, hrec, hne, hres]

theorem start_device_not_found_witness :
    initRecorder.recording = false ∧
    ("USB Mic").isEmpty = false ∧
    resolveDevice [⟨"Built-in Mic", 2⟩] "USB Mic" = none ∧
    startStep initRecorder [⟨"Built-in Mic", 2⟩] 0 (some "USB Mic") 16000 1 =
      (initRecorder, some (.deviceNotFound "USB Mic")) :=
  ⟨rfl, rfl, by decide,
    start_device_not_found initRecorder [⟨"Built-in Mic", 2⟩] 0 "USB Mic" 16000 1
      rfl rfl (by decide)⟩

/-- C8 counterexample: on a queue holding only the `eof` sentinel, the wait
does synthesize an error response, but its message is
"Audio worker exited unexpectedly", not "worker exited unexpectedly" as the
claim states. -/
theorem wait_eof_message_counterexample :
    waitForLocked (fun _ => false) [eofMsg] = some eofErrorResponse ∧
    eofErrorResponse.error = some "Audio worker exited unexpectedly" ∧
    ("Audio worker exited unexpectedly" : String) ≠ "worker exited unexpectedly" :=
  ⟨rfl, rfl, by decide⟩

/-- C8 amended: whenever the `eof` sentinel is dequeued before any matching
response, `_wait_for_locked` immediately returns the synthesized error
response whose message is "Audio worker exited unexpectedly", instead of
continuing to wait. -/
theorem wait_eof_synthesized_error (pred : QMsg → Bool) (pre rest : List QMsg)
    (h : ∀ m ∈ pre, pred m = false ∧ m.type ≠ some "eof") :
    waitForLocked pred (pre ++ eofMsg :: rest) = some eofErrorResponse := by
  induction pre with
  | nil => simp [waitForLocked, eofMsg]
  | cons m ms ih =>
    have hm := h m (List.mem_cons_self m ms)
    rw [List.cons_append]
    simp only [waitForLocked, hm.1, if_neg hm.2, if_false, Bool.false_eq_true]
    exact ih fun x hx => h x (List.mem_cons_of_mem m hx)

theorem wait_eof_synthesized_error_witness :
    (∀ m ∈ ([] : List QMsg), (fun _ => false : QMsg → Bool) m = false ∧
      m.type ≠ some "eof") ∧
    waitForLocked (fun _ => false) ([] ++ eofMsg :: [stdoutMsg "late"]) =
      some eofErrorResponse :=
  ⟨by simp, wait_eof_synthesized_error (fun _ => false) [] [stdoutMsg "late"] (by simp)⟩

/-- C10: a non-JSON line from the worker's stdout is enqueued as a message of
type "stdout" carrying the raw line (not discarded); such a message satisfies
none of the client's terminal-response predicates, and response correlation
(`_wait_for_locked`) skips it. -/
theorem reader_nonjson_stdout (raw : String) (rest : List WireLine) (reqId : Int) :
    (readStdout (.nonJson raw :: rest)).1 = stdoutMsg raw :: (readStdout rest).1 ∧
    startedPred reqId (stdoutMsg raw) = false ∧
    stoppedPred reqId (stdoutMsg raw) = false ∧
    canceledPred reqId (stdoutMsg raw) = false ∧
    readyPred (stdoutMsg raw) = false ∧
    ∀ (pred : QMsg → Bool) (q : List QMsg), pred (stdoutMsg raw) = false →
      waitForLocked pred (stdoutMsg raw :: q) = waitForLocked pred q := by
  refine ⟨rfl, by simp [startedPred, stdoutMsg], by simp [stoppedPred, stdoutMsg],
    by simp [canceledPred, stdoutMsg], by simp [readyPred, stdoutMsg], ?_⟩
  intro pred q hp
  have ht : (stdoutMsg raw).type = some "stdout" := rfl
  simp [waitForLocked, ht, hp]

theorem reader_nonjson_stdout_witness :
    ((fun m => startedPred 7 m) (stdoutMsg "oops") = false) ∧
    (readStdout [.nonJson "oops"]).1 = stdoutMsg "oops" :: (readStdout []).1 ∧
    waitForLocked (startedPred 7) (stdoutMsg "oops" :: [eofMsg]) =
      waitForLocked (startedPred 7) [eofMsg] :=
  ⟨by simp [startedPred, stdoutMsg],
    (reader_nonjson_stdout "oops" [] 7).1,
    (reader_nonjson_stdout "oops" [] 7).2.2.2.2.2 (startedPred 7) [eofMsg]
      (by simp [startedPred, stdoutMsg])⟩

lemma start_ok_fields {r r' : Recorder} {devs : List Device} {now : ℝ}
    {dn : Option String} {sr ch : Int}
    (h : Recorder.start r devs now dn sr ch = .ok r') :
    r'.sampleRate = some sr ∧ r'.channels = some ch := by
  unfold Recorder.start at h
  by_cases hrec : r.recording
  · simp [hrec] at h
  · rcases dn with _ | n
    · simp [hrec] at h
      exact ⟨by rw [← h], by rw [← h]⟩
    · by_cases he : n.isEmpty
      · simp [hrec, he] at h
        exact ⟨by rw [← h], by rw [← h]⟩
      · cases hres : resolveDevice devs n with
        | some i =>
          simp [hrec, he, hres] at h
          exact ⟨by rw [← h], by rw [← h]⟩
        | none => simp [hrec, he, hres] at h

/-- C9: in the worker's `start` handler, a missing, null, or zero
`sample_rate` defaults to 16000 and a missing, null, or zero `channels`
defaults to 1 before the recorder is started (Python `x or default`). -/
theorem start_field_defaults (devs : List Device) (now : ℝ) (r : Recorder)
    (m : InMsg) (ht : m.type = some "start")
    (hout : (handleLine devs now r (.json m)).out = [.started m.id]) :
    ((m.sampleRate = .absent ∨ m.sampleRate = .null ∨ m.sampleRate = .num 0) →
      (handleLine devs now r (.json m)).state.sampleRate = some 16000) ∧
    ((m.channels = .absent ∨ m.channels = .null ∨ m.channels = .num 0) →
      (handleLine devs now r (.json m)).state.channels = some 1) := by
  cases hst : Recorder.start r devs now m.deviceName (jOrInt m.sampleRate 16000)
      (jOrInt m.channels 1) with
  | ok r' =>
    have hstate : (handleLine devs now r (.json m)).state = r' := by
      simp [handleLine, ht, hst]
    obtain ⟨h1, h2⟩ := start_ok_fields hst
    constructor
    · rintro (h | h | h) <;> rw [hstate, h1, h] <;> rfl
    · rintro (h | h | h) <;> rw [hstate, h2, h] <;> rfl
  | error e =>
    have : (handleLine devs now r (.json m)).out = [.errorOut m.id e.message] := by
      simp [handleLine, ht, hst]
    rw [this] at hout
    simp at hout

theorem start_field_defaults_witness :
    startMsg0.type = some "start" ∧
    (handleLine [] 0 initRecorder (.json startMsg0)).out = [.started (some 1)] ∧
    (handleLine [] 0 initRecorder (.json startMsg0)).state.sampleRate = some 16000 ∧
    (handleLine [] 0 initRecorder (.json startMsg0)).state.channels = some 1 := by
  have hout : (handleLine [] 0 initRecorder (.json startMsg0)).out = [.started (some 1)] := rfl
  exact ⟨rfl, hout,
    (start_field_defaults [] 0 initRecorder startMsg0 rfl hout).1 (Or.inr (Or.inl rfl)),
    (start_field_defaults [] 0 initRecorder startMsg0 rfl hout).2 (Or.inl rfl)⟩

/-- C7: one protocol-loop iteration never crashes the loop: a non-JSON line
is logged and ignored; an unrecognized message type is logged and ignored;
`start`/`stop`/`cancel` produce exactly one terminal response, any error
response carrying the request id; the loop only exits on `shutdown`. -/
theorem worker_loop_robust (devs : List Device) (now : ℝ) (r : Recorder)
    (l : WireIn) :
    ((∃ raw, l = .nonJson raw) →
      (handleLine devs now r l).out = [] ∧ (handleLine devs now r l).logs ≠ [] ∧
      (handleLine devs now r l).exitCode = none) ∧
    (∀ m, l = .json m →
      m.type ∉ ([some "shutdown", some "start", some "stop", some "cancel"] :
        List (Option String)) →
      (handleLine devs now r l).out = [] ∧ (handleLine devs now r l).logs ≠ [] ∧
      (handleLine devs now r l).exitCode = none) ∧
    (∀ m, l = .json m →
      (m.type = some "start" ∨ m.type = some "stop" ∨ m.type = some "cancel") →
      ∃ o, (handleLine devs now r l).out = [o] ∧
        ∀ i s, o = .errorOut i s → i = m.id) ∧
    ((handleLine devs now r l).exitCode ≠ none →
      ∃ m, l = .json m ∧ m.type = some "shutdown") := by
  cases l with
  | blank =>
    refine ⟨?_, ?_, ?_, ?_⟩
    · rintro ⟨raw, h⟩; cases h
    · rintro m h; cases h
    · rintro m h; cases h
    · intro h; exact absurd rfl h
  | nonJson raw =>
    refine ⟨?_, ?_, ?_, ?_⟩
    · intro _; exact ⟨rfl, by simp [handleLine], rfl⟩
    · rintro m h; cases h
    · rintro m h; cases h
    · intro h; exact absurd rfl h
  | json m =>
    by_cases h1 : m.type = some "shutdown"
    · refine ⟨?_, ?_, ?_, ?_⟩
      · rintro ⟨raw, h⟩; cases h
      · rintro m' hm' hnot
        cases hm'
        exact absurd (by simp [h1]) hnot
      · rintro m' hm' htype
        cases hm'
        rcases htype with h | h | h <;> rw [h1] at h <;> simp at h
      · intro _
        exact ⟨m, rfl, h1⟩
    · by_cases h2 : m.type = some "start"
      · refine ⟨?_, ?_, ?_, ?_⟩
        · rintro ⟨raw, h⟩; cases h
        · rintro m' hm' hnot
          cases hm'
          exact absurd (by simp [h2]) hnot
        · rintro m' hm' _
          cases hm'
          cases hst : Recorder.start r devs now m.deviceName
              (jOrInt m.sampleRate 16000) (jOrInt m.channels 1) with
          | ok r' =>
            refine ⟨.started m.id, by simp [handleLine, h1, h2, hst], ?_⟩
            intro i s h; cases h
          | error e =>
            refine ⟨.errorOut m.id e.message, by simp [handleLine, h1, h2, hst], ?_⟩
            intro i s h; cases h; rfl
        · intro h
          cases hst : Recorder.start r devs now m.deviceName
              (jOrInt m.sampleRate 16000) (jOrInt m.channels 1) with
          | ok r' => simp [handleLine, h1, h2, hst] at h
          | error e => simp [handleLine, h1, h2, hst] at h
      · by_cases h3 : m.type = some "stop"
        · have hout : ∃ o, (handleLine devs now r (.json m)).out = [o] ∧
              (handleLine devs now r (.json m)).exitCode = none ∧
              ∀ i s, o = OutMsg.errorOut i s → i = m.id := by
            cases hwp : m.wavPath with
            | none =>
              refine ⟨.errorOut m.id "Missing wav_path",
                by simp [handleLine, h1, h2, h3, hwp], by simp [handleLine, h1, h2, h3, hwp], ?_⟩
              intro i s h; cases h; rfl
            | some p =>
              by_cases hpe : p.isEmpty
              · refine ⟨.errorOut m.id "Missing wav_path",
                  by simp [handleLine, h1, h2, h3, hwp, hpe],
                  by simp [handleLine, h1, h2, h3, hwp, hpe], ?_⟩
                intro i s h; cases h; rfl
              · rcases hstp : Recorder.stop r p with ⟨r', res⟩
                cases res with
                | ok v =>
                  refine ⟨.stopped m.id p v.1 v.2.1,
                    by simp [handleLine, h1, h2, h3, hwp, hpe, hstp],
                    by simp [handleLine, h1, h2, h3, hwp, hpe, hstp], ?_⟩
                  intro i s h; cases h
                | error msg =>
                  refine ⟨.errorOut m.id msg,
                    by simp [handleLine, h1, h2, h3, hwp, hpe, hstp],
                    by simp [handleLine, h1, h2, h3, hwp, hpe, hstp], ?_⟩
                  intro i s h; cases h; rfl
          obtain ⟨o, ho, hexit, herr⟩ := hout
          refine ⟨?_, ?_, ?_, ?_⟩
          · rintro ⟨raw, h⟩; cases h
          · rintro m' hm' hnot
            cases hm'
            exact absurd (by simp [h3]) hnot
          · rintro m' hm' _
            cases hm'
            exact ⟨o, ho, herr⟩
          · intro h; exact absurd hexit h
        · by_cases h4 : m.type = some "cancel"
          · refine ⟨?_, ?_, ?_, ?_⟩
            · rintro ⟨raw, h⟩; cases h
            · rintro m' hm' hnot
              cases hm'
              exact absurd (by simp [h4]) hnot
            · rintro m' hm' _
              cases hm'
              refine ⟨.canceled m.id, by simp [handleLine, h1, h2, h3, h4], ?_⟩
              intro i s h; cases h
            · intro h
              simp [handleLine, h1, h2, h3, h4] at h
          · refine ⟨?_, ?_, ?_, ?_⟩
            · rintro ⟨raw, h⟩; cases h
            · rintro m' hm' _
              cases hm'
              exact ⟨by simp [handleLine, h1, h2, h3, h4],
                by simp [handleLine, h1, h2, h3, h4], by simp [handleLine, h1, h2, h3, h4]⟩
            · rintro m' hm' htype
              cases hm'
              rcases htype with h | h | h
              · exact absurd h h2
              · exact absurd h h3
              · exact absurd h h4
            · intro h
              simp [handleLine, h1, h2, h3, h4] at h

theorem worker_loop_robust_witness :
    (handleLine [] 0 initRecorder (.nonJson "garbage")).out = [] ∧
    (handleLine [] 0 initRecorder (.nonJson "garbage")).logs ≠ [] ∧
    (handleLine [] 0 initRecorder (.nonJson "garbage")).exitCode = none :=
  (worker_loop_robust [] 0 initRecorder (.nonJson "garbage")).1 ⟨"garbage", rfl⟩

lemma foldl_max_spec (l : List ℝ) :
    ∀ a : ℝ, a ≤ l.foldl max a ∧ (∀ x ∈ l, x ≤ l.foldl max a) ∧
      (l.foldl max a = a ∨ l.foldl max a ∈ l) := by
  induction l with
  | nil => intro a; simp
  | cons y ys ih =>
    intro a
    obtain ⟨h1, h2, h3⟩ := ih (max a y)
    refine ⟨le_trans (le_max_left a y) h1, ?_, ?_⟩
    · intro x hx
      rcases List.mem_cons.mp hx with rfl | hx
      · exact le_trans (le_max_right a x) h1
      · exact h2 x hx
    · rcases h3 with h | h
      · rcases max_choice a y with hm | hm
        · left; rw [List.foldl_cons, h, hm]
        · right; rw [List.foldl_cons, h, hm]; exact List.mem_cons_self y ys
      · right; exact List.mem_cons_of_mem y h

lemma maxAbs_spec (l : List ℝ) (h : l ≠ []) :
    (∀ s ∈ l, |s| ≤ maxAbs l) ∧ ∃ s ∈ l, |s| = maxAbs l := by
  obtain ⟨h1, h2, h3⟩ := foldl_max_spec (l.map abs) 0
  have hub : ∀ s ∈ l, |s| ≤ maxAbs l := by
    intro s hs
    exact h2 _ (List.mem_map_of_mem abs hs)
  refine ⟨hub, ?_⟩
  rcases h3 with h0 | hmem
  · obtain ⟨x, hx⟩ := List.exists_mem_of_ne_nil l h
    refine ⟨x, hx, le_antisymm (hub x hx) ?_⟩
    rw [maxAbs, h0]
    exact abs_nonneg x
  · obtain ⟨x, hxl, hxe⟩ := List.mem_map.mp hmem
    exact ⟨x, hxl, hxe⟩

/-- C3: `stop` while Recording with a non-empty chunk sequence returns the
total frame count across all chunks (two chunks of K frames give 2K), writes
a container with exactly that many frames, and returns as peak the maximum
absolute sample value across all captured chunks. -/
theorem stop_frames_peak (r : Recorder) (p : String)
    (hrec : r.recording = true) (hch : r.chunks ≠ [])
    (hs : allSamples r.chunks ≠ []) :
    ∃ pk file,
      r.stop p = ({ r with recording := false, stream := none, chunks := [] },
        .ok ((r.chunks.map List.length).sum, pk, some file)) ∧
      file.frames.length = (r.chunks.map List.length).sum ∧
      (∀ s ∈ allSamples r.chunks, |s| ≤ pk) ∧
      ∃ s ∈ allSamples r.chunks, |s| = pk := by
  obtain ⟨hub, hat⟩ := maxAbs_spec (allSamples r.chunks) hs
  refine ⟨maxAbs (allSamples r.chunks),
    ⟨p, pyIntOr r.sampleRate 16000, r.chunks.flatten.map fun fr => fr.map toInt16⟩,
    ?_, ?_, hub, hat⟩
  · have hch' : r.chunks.isEmpty = false := by
      simp [List.isEmpty_iff, hch]
    have hs' : r.chunks.flatten.flatten.isEmpty = false := by
      simpa [List.isEmpty_iff, allSamples] using hs
    simp only [Recorder.stop, hrec, Bool.true_eq_false, if_false, hch', hs',
      Bool.false_eq_true, List.length_flatten, allSamples]
  · simp only [List.length_map, List.length_flatten]

theorem stop_frames_peak_witness :
    recWithChunks.recording = true ∧ recWithChunks.chunks ≠ [] ∧
    allSamples recWithChunks.chunks ≠ [] ∧
    ∃ pk file,
      recWithChunks.stop "out.wav" =
        ({ recWithChunks with recording := false, stream := none, chunks := [] },
          .ok ((recWithChunks.chunks.map List.length).sum, pk, some file)) ∧
      file.frames.length = (recWithChunks.chunks.map List.length).sum ∧
      (∀ s ∈ allSamples recWithChunks.chunks, |s| ≤ pk) ∧
      ∃ s ∈ allSamples recWithChunks.chunks, |s| = pk :=
  ⟨rfl, by simp [recWithChunks], by simp [recWithChunks, allSamples],
    stop_frames_peak recWithChunks "out.wav" rfl (by simp [recWithChunks])
      (by simp [recWithChunks, allSamples])⟩

lemma rawValues_nonneg (audio : List ℝ) : ∀ w ∈ rawValues audio, 0 ≤ w := by
  intro w hw
  simp only [rawValues, List.mem_map, List.mem_range] at hw
  obtain ⟨i, _, rfl⟩ := hw
  split
  · exact Real.sqrt_nonneg _
  · exact le_refl 0

lemma rawValues_length (audio : List ℝ) :
    (rawValues audio).length = WAVEFORM_BARS := by
  simp [rawValues]

/-- C1: whenever a waveform event is emitted (non-empty pending buffer), it
carries exactly `WAVEFORM_BARS` = 24 values, each lying in `[0, 1]`; the
updated smoothed peak level stays nonnegative, so the invariant feeding this
theorem is preserved across ticks. -/
theorem waveform_values_bounded (st : WaveState) (buffer : List Chunk)
    (hpl : 0 ≤ st.peakLevel) (hbuf : buffer ≠ []) :
    ∃ values rawPeak st',
      sendWaveform st buffer = some (values, rawPeak, st') ∧
      values.length = WAVEFORM_BARS ∧
      (∀ v ∈ values, 0 ≤ v ∧ v ≤ 1) ∧ 0 ≤ st'.peakLevel := by
  have hbe : buffer.isEmpty = false := by simp [List.isEmpty_iff, hbuf]
  simp only [sendWaveform, hbe, Bool.false_eq_true, if_false]
  refine ⟨_, _, _, rfl, ?_, ?_, ?_⟩
  · simp [rawValues_length]
  · set audio := (buffer.flatten.map fun fr => fr.headD 0).map (fun x => |x|) with haudio
    set raw := rawValues audio with hraw
    set currentMax : ℝ := if raw.isEmpty then 0 else raw.foldl max (raw.headD 0)
      with hcm
    set hist0 := st.peakHistory ++ [currentMax] with hh0
    set hist := if PEAK_WINDOW_SIZE < hist0.length then hist0.drop 1 else hist0
      with hh
    set target := max (percentile85 hist) 0.005 with htg
    set pl := st.peakLevel * 0.8 + target * 0.2 with hpldef
    have htgt : (0.005 : ℝ) ≤ target := le_max_right _ _
    have hplpos : 0 < pl := by
      rw [hpldef]
      nlinarith [hpl, htgt]
    intro v hv
    simp only [List.mem_map] at hv
    obtain ⟨w, hw, rfl⟩ := hv
    have hw0 : 0 ≤ w := rawValues_nonneg audio w hw
    constructor
    · refine le_min zero_le_one ?_
      have : (0:ℝ) ≤ w / pl := div_nonneg hw0 hplpos.le
      nlinarith
    · exact min_le_left _ _
  · set target := max (percentile85 _) 0.005 with htg
    have htgt : (0.005 : ℝ) ≤ target := le_max_right _ _
    show 0 ≤ st.peakLevel * 0.8 + target * 0.2
    nlinarith [hpl, htgt]

theorem waveform_values_bounded_witness :
    (0:ℝ) ≤ waveSt0.peakLevel ∧ ([[[0]]] : List Chunk) ≠ [] ∧
    ∃ values rawPeak st',
      sendWaveform waveSt0 [[[0]]] = some (values, rawPeak, st') ∧
      values.length = WAVEFORM_BARS ∧
      (∀ v ∈ values, 0 ≤ v ∧ v ≤ 1) ∧ 0 ≤ st'.peakLevel :=
  ⟨by norm_num [waveSt0], by simp,
    waveform_values_bounded waveSt0 [[[0]]] (by norm_num [waveSt0]) (by simp)⟩

lemma getD_map_range (n k : Nat) (f : Nat → ℝ) (h : k < n) :
    ((List.range n).map f).getD k 0 = f k := by
  rw [List.getD_eq_getElem?_getD, List.getElem?_map, List.getElem?_range h]
  rfl

lemma drop_take_getD (l : List ℝ) (s k : Nat) :
    (l.drop s).take k =
      (List.range' s (min k (l.length - s))).map fun j => l.getD j 0 := by
  apply List.ext_getElem
  · simp
  · intro i h1 h2
    have hi : i < min k (l.length - s) := by simpa using h2
    have hsi : s + i < l.length := by omega
    rw [List.getElem_take, List.getElem_drop]
    simp only [List.getElem_map]
    rw [List.getElem_range'_1]
    rw [List.getD_eq_getElem?_getD, List.getElem?_eq_getElem hsi]
    rfl

/-- C2 amended: the pipeline yields 24 bars; bar `i` is the RMS of the
segment of length `L = max(total/24, 1)` starting at sample `i*L` and clipped
to the sample count, or 0 for a segment starting at or beyond the end; the
trailing remainder (samples at positions `≥ 24*L`) is DISCARDED, not folded
into the last segment. -/
theorem rawValues_segments (audio : List ℝ) :
    (rawValues audio).length = WAVEFORM_BARS ∧
    ∀ i, i < WAVEFORM_BARS →
      (rawValues audio).getD i 0 =
        if i * max (audio.length / WAVEFORM_BARS) 1 < audio.length
        then rms (barSegment audio i) else 0 := by
  refine ⟨rawValues_length audio, ?_⟩
  intro i hi
  simp only [rawValues]
  rw [getD_map_range _ _ _ hi]
  set L := max (audio.length / WAVEFORM_BARS) 1 with hL
  show (if i * L < audio.length
      then rms ((audio.drop (i * L)).take (min (i * L + L) audio.length - i * L))
      else 0) =
    if i * L < audio.length then rms (barSegment audio i) else 0
  by_cases hlt : i * L < audio.length
  · rw [if_pos hlt, if_pos hlt]
    congr 1
    rw [drop_take_getD]
    show _ = (List.range' (i * L) (min (i * L + L) audio.length - i * L)).map
      fun j => audio.getD j 0
    rw [Nat.min_eq_left
      (Nat.sub_le_sub_right (min_le_right (i * L + L) audio.length) (i * L))]
  · rw [if_neg hlt, if_neg hlt]

theorem rawValues_segments_witness :
    (0 : Nat) < WAVEFORM_BARS ∧
    (rawValues [(1:ℝ), 2]).getD 0 0 =
      (if 0 * max (([(1:ℝ), 2]).length / WAVEFORM_BARS) 1 < ([(1:ℝ), 2]).length
       then rms (barSegment [(1:ℝ), 2] 0) else 0) :=
  ⟨by decide, (rawValues_segments [(1:ℝ), 2]).2 0 (by decide)⟩

/-- C2 counterexample: with 25 samples (24 zeros then a one), segment length
is `max(25/24, 1) = 1`, so the code's last bar is the RMS of sample 23 alone
(namely 0) — the trailing sample 24 is dropped — while the claimed
fold-into-last-segment partition would give `rms [0, 1] = sqrt(1/2) > 0`. -/
theorem rawValues_folding_counterexample :
    rawValues (List.replicate 24 (0:ℝ) ++ [1]) ≠
      rawValuesClaim (List.replicate 24 (0:ℝ) ++ [1]) := by
  intro h
  have hlen : (List.replicate 24 (0:ℝ) ++ [1]).length = 25 := by simp
  have hdrop : (List.replicate 24 (0:ℝ) ++ [1]).drop 23 = [0, 1] := by
    rw [List.drop_append_of_le_length (by simp)]
    simp [List.drop_replicate]
  have h23 := congrArg (fun l : List ℝ => l.getD 23 0) h
  simp only [rawValues, rawValuesClaim] at h23
  rw [getD_map_range _ _ _ (by norm_num [WAVEFORM_BARS]),
    getD_map_range _ _ _ (by norm_num [WAVEFORM_BARS])] at h23
  simp only [hlen, WAVEFORM_BARS] at h23
  norm_num at h23
  rw [hdrop] at h23
  norm_num [List.take, rms] at h23
  have hpos : (0:ℝ) < Real.sqrt 2 := Real.sqrt_pos.mpr (by norm_num)
  rw [← h23] at hpos
  exact lt_irrefl 0 hpos
